import Mathlib

/-!
Verification of the Arlington PDF model grammar engine against its
natural-language specification.

The development shallowly embeds the two audited modules:

* `CGrammarReader::load` / `CGrammarReader::check`
  (TestGrammar/src/GrammarFile.cpp) — the grammar loader and self-checker;
* `XMLCreator.createXML` / `XMLCreator.nodeValues` / `XMLCreator.nodeRequired`
  (gcxml XMLCreator.java) — the version-reduction-driven XML export.

Strings are embedded as Lean `String` (a wrapper around `List Char`), and
the C++/Java splitting loops are re-implemented structurally so everything
reduces inside the kernel.  Out-of-bounds `std::vector` indexing (undefined
behaviour in the C++) is modelled by `Option`: a `none` result marks an
execution that crashes / is undefined.
-/

namespace Arlington

/-! ## TSV column layout

The `TSV_*` column indices are declared in `GrammarFile.h`, which is not part
of the audited sources.  Modelled from the spec: §6 fixes the column order as
key name, type-list, introduced-version, deprecated-version, required,
indirect-reference, inheritable, default-values, possible-values,
special-case, links, plus an optional notes column; the same order is used by
`XMLCreator.createXML` (column_values[0] .. column_values[11]). -/

def TSV_KEYNAME : Nat := 0

def TSV_TYPE : Nat := 1

def TSV_SINCEVERSION : Nat := 2

def TSV_DEPRECATEDIN : Nat := 3

def TSV_REQUIRED : Nat := 4

def TSV_INDIRECTREF : Nat := 5

def TSV_INHERITABLE : Nat := 6

def TSV_DEFAULTVALUE : Nat := 7

def TSV_POSSIBLEVALUES : Nat := 8

def TSV_SPECIALCASE : Nat := 9

def TSV_LINK : Nat := 10

def TSV_NOTES : Nat := 11

/-! ## String helpers -/

/-- Splitting a character list on a delimiter, keeping empty and trailing
segments.  This is the loop of `CGrammarReader::load` (GrammarFile.cpp
lines 48-54: repeated `find` + `push_back`, then "Last word"), and also the
behaviour of Java `String.split(delim, -1)` used by `XMLCreator`. -/
def splitListAux (delim : Char) (cur : List Char) : List Char → List (List Char)
  | [] => [cur.reverse]
  | c :: rest =>
    if c = delim then cur.reverse :: splitListAux delim [] rest
    else splitListAux delim (c :: cur) rest

/-- String-level split on a single-character delimiter. -/
def splitStr (delim : Char) (s : String) : List String :=
  (splitListAux delim [] s.data).map String.mk

/-- ASCII uppercasing of a whole string, modelling the
`std::transform(..., ::toupper)` calls in `CGrammarReader::load`
(GrammarFile.cpp lines 62-65). -/
def strToUpper (s : String) : String := String.mk (s.data.map Char.toUpper)

/-- ASCII lowercasing, modelling Java `String.toLowerCase()` on the
ASCII-only TSV field values. -/
def strToLower (s : String) : String := String.mk (s.data.map Char.toLower)

/-- `s.startsWith "fn:"`, the predicate-expression marker test. -/
def startsWithFn (s : String) : Bool :=
  match s.data with
  | 'f' :: 'n' :: ':' :: _ => true
  | _ => false

/-! ## Grammar row model and version reduction (`XMLCreator.createXML`)

One TSV data row of a grammar object.  `sinceVersion` is the numeric value of
the TSV "SinceVersion" field (`Float.parseFloat(column_values[2])` in
XMLCreator.java line 133); Arlington version strings are one-decimal numerals
("1.0" .. "2.0") on which `Float.parseFloat` is order-preserving, so the
version is embedded as its exact rational value. -/

structure Row where
  key : String
  types : String
  sinceVersion : ℚ
  deprecatedIn : String
  required : String
  indirectRef : String
  inheritable : String
  defaultValue : String
  possibleValues : String
  specialCase : String
  link : String
  note : String
deriving DecidableEq, Repr

/-- A named grammar object: one TSV file's worth of rows
(`<OBJECT id=file_name>` in `createXML`). -/
structure GrammarObject where
  name : String
  rows : List Row
deriving DecidableEq, Repr

/-- The per-row version test of `XMLCreator.createXML` line 137:
`current_entry_version <= pdf_ver`. -/
def keepRow (r : Row) (v : ℚ) : Bool := decide (r.sinceVersion ≤ v)

/-- The rows that contribute an `<ENTRY>` element to the reduced output of
one grammar object (`createXML` lines 137-192): a row produces an entry iff
`keepRow`, otherwise only "Dropped key" is printed and nothing is appended.
Each `nodeName`/`nodeIntroduced`/... constructor on lines 155-168 returns a
non-null element, so the guard on lines 170-177 always appends the entry of
a kept row.  Field rewriting of a kept row does not affect row identity or
its key, so kept rows are carried unchanged. -/
def reduceObject (g : GrammarObject) (v : ℚ) : List Row :=
  g.rows.filter (fun r => keepRow r v)

/-- C3: a grammar row appears in the version-reduced output exactly when its
introduced version is at most the target version; a row introduced strictly
later is dropped entirely and contributes nothing. -/
theorem reduce_row_kept_iff (name : String) (rows : List Row) (v : ℚ) (r : Row) :
    r ∈ reduceObject ⟨name, rows⟩ v ↔ (r ∈ rows ∧ r.sinceVersion ≤ v) := by
  simp [reduceObject, keepRow, List.mem_filter]

/-- C2: for one grammar object, the key set of the reduction grows
monotonically with the target version. -/
theorem reduce_keys_monotone (g : GrammarObject) (v1 v2 : ℚ) (h : v1 ≤ v2) :
    ∀ k, k ∈ (reduceObject g v1).map Row.key → k ∈ (reduceObject g v2).map Row.key := by
  intro k hk
  rcases List.mem_map.mp hk with ⟨r, hr, hkey⟩
  rcases (List.mem_filter.mp hr) with ⟨hrows, hv⟩
  refine List.mem_map.mpr ⟨r, List.mem_filter.mpr ⟨hrows, ?_⟩, hkey⟩
  simp only [keepRow, decide_eq_true_eq] at hv ⊢
  exact le_trans hv h

/-- Example grammar object used by concrete witnesses. -/
def gEx : GrammarObject :=
  { name := "Catalog"
    rows := [{ key := "Pages", types := "DICTIONARY", sinceVersion := 1,
               deprecatedIn := "", required := "TRUE", indirectRef := "TRUE",
               inheritable := "FALSE", defaultValue := "", possibleValues := "",
               specialCase := "", link := "[Pages]", note := "" }] }

/-- Witness for C2 at a concrete grammar object and versions 1 ≤ 2. -/
theorem reduce_keys_monotone_witness :
    "Pages" ∈ (reduceObject gEx 2).map Row.key :=
  reduce_keys_monotone gEx 1 2 (by norm_num) "Pages" (by decide)

/-! ## Positional alignment of per-variant lists under reduction (C1)

Modelled from the spec: `TSVHandler.TypeListModifier` (reduceTypesForVersion /
getReducedTypes / reduceCorresponding) is called from `createXML` lines
140-152 but its source is not among the audited files.  Spec §4.3 steps 2-3:
type variants introduced after the target version are dropped, and every
per-variant list has the same positions removed as were removed from `types`,
preserving relative order.  The removal pattern is represented by a Boolean
keep-mask over variant positions; `reduceCorresponding` applies the same mask
to any per-variant list. -/

/-- Modelled from the spec: the keep-mask produced by
`TSVHandler.reduceTypesForVersion` — one Boolean per type variant, true iff
the variant's own introduction version is at most the target version
(spec §4.3 step 2). -/
def reduceTypesMask (variantIntroduced : List ℚ) (v : ℚ) : List Bool :=
  variantIntroduced.map (fun q => decide (q ≤ v))

/-- Modelled from the spec: `TypeListModifier.reduceCorresponding` — apply
the keep-mask of the type-list reduction to a positionally aligned
per-variant list (spec §4.3 step 3). -/
def reduceCorresponding (mask : List Bool) : List α → List α
  | [] => []
  | x :: xs =>
    match mask with
    | [] => []
    | b :: bs => if b then x :: reduceCorresponding bs xs else reduceCorresponding bs xs

/-- The variant positions a keep-mask retains, in increasing order. -/
def keptPositions (mask : List Bool) : List Nat :=
  (List.range mask.length).filter (fun i => mask.getD i false)

theorem reduceCorresponding_nil (mask : List Bool) :
    reduceCorresponding mask ([] : List α) = [] := by
  cases mask <;> rfl

theorem reduceCorresponding_eq_filterMap (mask : List Bool) (xs : List α) :
    reduceCorresponding mask xs = (keptPositions mask).filterMap (fun i => xs.get? i) := by
  induction mask generalizing xs with
  | nil =>
    cases xs <;> simp [reduceCorresponding, keptPositions]
  | cons b bs ih =>
    have hkept : keptPositions (b :: bs)
        = (if b then [0] else []) ++ (keptPositions bs).map Nat.succ := by
      simp only [keptPositions, List.length_cons, List.range_succ_eq_map,
        List.filter_cons, List.getD_cons_zero, List.filter_map]
      have : (fun i => (b :: bs).getD i false) ∘ Nat.succ = fun i => bs.getD i false := by
        funext i; simp
      rw [this]
      cases b <;> simp
    cases xs with
    | nil =>
      rw [hkept]
      have hnone : ∀ i ∈ (if b then [0] else []) ++ (keptPositions bs).map Nat.succ,
          (([] : List α).get? i) = none := by
        intro i _; simp
      simp [reduceCorresponding, List.filterMap_eq_nil_iff.mpr hnone]
    | cons x xt =>
      rw [hkept]
      have hcomp : ((fun i => (x :: xt)[i]?) ∘ Nat.succ) = fun i => xt[i]? := by
        funext i; simp
      cases b with
      | true =>
        simp [reduceCorresponding, List.filterMap_cons, List.filterMap_map, hcomp, ih]
      | false =>
        simp [reduceCorresponding, List.filterMap_map, hcomp, ih]

theorem reduceCorresponding_sublist (mask : List Bool) (xs : List α) :
    (reduceCorresponding mask xs).Sublist xs := by
  induction mask generalizing xs with
  | nil => cases xs <;> simp [reduceCorresponding]
  | cons b bs ih =>
    cases xs with
    | nil => simp [reduceCorresponding]
    | cons x xt =>
      cases b with
      | true => exact (ih xt).cons₂ x
      | false => exact (ih xt).cons x

theorem reduceCorresponding_length_eq (mask : List Bool) (xs : List α) (ys : List β)
    (h : xs.length = ys.length) :
    (reduceCorresponding mask xs).length = (reduceCorresponding mask ys).length := by
  induction mask generalizing xs ys with
  | nil => cases xs <;> cases ys <;> simp_all [reduceCorresponding]
  | cons b bs ih =>
    cases xs with
    | nil =>
      cases ys with
      | nil => simp [reduceCorresponding]
      | cons y yt => simp at h
    | cons x xt =>
      cases ys with
      | nil => simp at h
      | cons y yt =>
        simp only [List.length_cons, Nat.succ.injEq] at h
        cases b with
        | true => simp [reduceCorresponding, ih xt yt h]
        | false => simp [reduceCorresponding, ih xt yt h]

/-- C1: reducing a per-variant list with the keep-mask of the type-list
reduction removes exactly the positions removed from the type list: both
reduced lists consist of the entries at the mask's kept positions in
increasing order, the surviving entries keep their relative order, and the
reduced per-variant list has the same length as the reduced type list. -/
theorem reduceCorresponding_aligned (mask : List Bool) (types vals : List String)
    (h : vals.length = types.length) :
    reduceCorresponding mask vals = (keptPositions mask).filterMap (fun i => vals.get? i)
    ∧ reduceCorresponding mask types = (keptPositions mask).filterMap (fun i => types.get? i)
    ∧ (reduceCorresponding mask vals).Sublist vals
    ∧ (reduceCorresponding mask vals).length = (reduceCorresponding mask types).length :=
  ⟨reduceCorresponding_eq_filterMap mask vals,
   reduceCorresponding_eq_filterMap mask types,
   reduceCorresponding_sublist mask vals,
   reduceCorresponding_length_eq mask vals types h⟩

/-- Witness for C1 at a concrete mask, type list and aligned value list. -/
theorem reduceCorresponding_aligned_witness :
    (["[1]", "[2]"] : List String).length = (["INTEGER", "ARRAY"] : List String).length
    ∧ (reduceCorresponding [true, false] ["[1]", "[2]"]
        = (keptPositions [true, false]).filterMap
            (fun i => (["[1]", "[2]"] : List String).get? i)
      ∧ reduceCorresponding [true, false] ["INTEGER", "ARRAY"]
        = (keptPositions [true, false]).filterMap
            (fun i => (["INTEGER", "ARRAY"] : List String).get? i)
      ∧ (reduceCorresponding [true, false] ["[1]", "[2]"]).Sublist ["[1]", "[2]"]
      ∧ (reduceCorresponding [true, false] ["[1]", "[2]"]).length
        = (reduceCorresponding [true, false] ["INTEGER", "ARRAY"]).length) :=
  ⟨rfl, reduceCorresponding_aligned [true, false] ["INTEGER", "ARRAY"] ["[1]", "[2]"] rfl⟩

/-! ## Grammar loader (`CGrammarReader::load`, GrammarFile.cpp lines 40-71) -/

/-- One in-place uppercase transform
`std::transform(vec[i].begin(), vec[i].end(), vec[i].begin(), ::toupper)`. -/
def upperAt (i : Nat) (v : List String) : List String :=
  v.set i (strToUpper (v.getD i ""))

/-- The four per-row normalizations of `load` (GrammarFile.cpp lines 61-65):
Type, Required, Indirect, Inheritable are converted to uppercase —
unconditionally, with no exemption for `fn:` predicate expressions.
(The C++ indexes `vec[i]` unchecked; for a non-first row with fewer than 7
columns that is out of range.  `List.set`/`List.getD` totalize this — the
theorems below only use rows long enough for the accesses to be in
bounds.) -/
def normalizeRow (v : List String) : List String :=
  upperAt TSV_INHERITABLE (upperAt TSV_INDIRECTREF (upperAt TSV_REQUIRED (upperAt TSV_TYPE v)))

/-- The line loop of `load`: split each line on the delimiter; if the first
line has fewer than `TSV_NOTES` columns return `false` at once (lines 57-60),
otherwise normalize and append (lines 62-66). -/
def loadAux (delim : Char) : List String → List (List String) → Bool × List (List String)
  | [], acc => (true, acc)
  | line :: rest, acc =>
    let vec := splitStr delim line
    if acc.isEmpty ∧ vec.length < TSV_NOTES then (false, acc)
    else loadAux delim rest (acc ++ [normalizeRow vec])

/-- `CGrammarReader::load`: iterate over the file's lines.  A file that
cannot be opened yields zero `getline` iterations, exactly like a file with
no lines, so both are modelled as the empty line list. -/
def load (delim : Char) (lines : List String) : Bool × List (List String) :=
  loadAux delim lines []

/-- `XMLCreator.nodeRequired` (XMLCreator.java lines 278-285): the Required
field is lowercased unless it starts with `fn:`, in which case it is kept
verbatim. -/
def nodeRequired (colValue : String) : String :=
  if startsWithFn colValue then colValue else strToLower colValue

/-- A concrete TSV line whose Required field is a predicate expression. -/
def fnRowLine : String :=
  "Count\tinteger\t1.0\t\tfn:IsRequired(a)\tfalse\tFALSE\t\t\t\t[]\t"

/-- Counterexample to C4: the loader does NOT preserve `fn:`-prefixed
predicate expressions verbatim — `load` uppercases the Required field of a
row whose Required value is `fn:IsRequired(a)`, storing `FN:ISREQUIRED(A)`. -/
theorem load_fn_uppercased_cex :
    ((load '\t' [fnRowLine]).2.getD 0 []).getD TSV_REQUIRED "" = "FN:ISREQUIRED(A)"
    ∧ "FN:ISREQUIRED(A)" ≠ "fn:IsRequired(a)" := by
  constructor
  · rfl
  · decide

theorem getD_set_self (l : List String) (i : Nat) (x : String) (h : i < l.length) :
    (l.set i x).getD i "" = x := by
  rw [List.getD_eq_getElem?_getD, List.getElem?_set_eq_of_lt x h]
  rfl

theorem getD_set_other (l : List String) (i j : Nat) (x : String) (h : i ≠ j) :
    (l.set i x).getD j "" = l.getD j "" := by
  rw [List.getD_eq_getElem?_getD, List.getD_eq_getElem?_getD, List.getElem?_set_ne h]

/-- C4 as amended: for every row with at least 7 columns, the loader
case-folds the Type, Required, IndirectReference and Inheritable fields to
uppercase unconditionally — predicate expressions included; the
predicate-verbatim exemption exists only in the XML exporter's conversion of
the Required field (`nodeRequired`), which keeps `fn:`-prefixed values
character for character and lowercases all other values. -/
theorem load_uppercases_fields (v : List String) (h : TSV_INHERITABLE < v.length) :
    (normalizeRow v).getD TSV_TYPE "" = strToUpper (v.getD TSV_TYPE "")
    ∧ (normalizeRow v).getD TSV_REQUIRED "" = strToUpper (v.getD TSV_REQUIRED "")
    ∧ (normalizeRow v).getD TSV_INDIRECTREF "" = strToUpper (v.getD TSV_INDIRECTREF "")
    ∧ (normalizeRow v).getD TSV_INHERITABLE "" = strToUpper (v.getD TSV_INHERITABLE "")
    ∧ (∀ s : String, startsWithFn s = true → nodeRequired s = s)
    ∧ (∀ s : String, startsWithFn s = false → nodeRequired s = strToLower s) := by
  have h1 : TSV_TYPE < v.length := lt_trans (by decide) h
  have h4 : TSV_REQUIRED < v.length := lt_trans (by decide) h
  have h5 : TSV_INDIRECTREF < v.length := lt_trans (by decide) h
  refine ⟨?_, ?_, ?_, ?_, ?_, ?_⟩
  · unfold normalizeRow upperAt
    rw [getD_set_other _ _ _ _ (by decide), getD_set_other _ _ _ _ (by decide),
      getD_set_other _ _ _ _ (by decide), getD_set_self _ _ _ h1]
  · unfold normalizeRow upperAt
    rw [getD_set_other _ _ _ _ (by decide), getD_set_other _ _ _ _ (by decide),
      getD_set_self, getD_set_other _ _ _ _ (by decide)]
    simpa using h4
  · unfold normalizeRow upperAt
    rw [getD_set_other _ _ _ _ (by decide), getD_set_self,
      getD_set_other _ _ _ _ (by decide), getD_set_other _ _ _ _ (by decide)]
    simpa using h5
  · unfold normalizeRow upperAt
    rw [getD_set_self, getD_set_other _ _ _ _ (by decide),
      getD_set_other _ _ _ _ (by decide), getD_set_other _ _ _ _ (by decide)]
    simpa using h
  · intro s hs; simp [nodeRequired, hs]
  · intro s hs; simp [nodeRequired, hs]

/-- Witness for amended C4 at a concrete 12-column row. -/
theorem load_uppercases_fields_witness :
    TSV_INHERITABLE
      < (["K", "name", "1.0", "", "fn:A(x)", "TRUE", "false", "", "", "", "", ""] : List String).length
    ∧ (normalizeRow ["K", "name", "1.0", "", "fn:A(x)", "TRUE", "false", "", "", "", "", ""]).getD
        TSV_REQUIRED ""
      = strToUpper
          ((["K", "name", "1.0", "", "fn:A(x)", "TRUE", "false", "", "", "", "", ""] : List String).getD
            TSV_REQUIRED "") :=
  ⟨by decide,
   (load_uppercases_fields
      ["K", "name", "1.0", "", "fn:A(x)", "TRUE", "false", "", "", "", "", ""]
      (by decide)).2.1⟩

/-! ## Self-checker (`CGrammarReader::check`, GrammarFile.cpp lines 87-205)

The C++ writes findings to `report_stream` and returns a Bool; the embedding
returns the Bool together with the ordered list of findings.  The result is
wrapped in `Option`: `none` marks an execution that performs an out-of-bounds
`std::vector` access (undefined behaviour, in practice a crash). -/

inductive Finding where
  | emptyGrammarFile
  | wrongColumnCount
  | wrongHeaders
  | duplicateKey (key : String)
  | wrongLinkArity (key : String)
  | wrongLinkPattern (key : String)
  | typeNotLinked (ty key : String)
  | linkMissing (lnk key : String)
  | wrongType (ty key : String)
  | complexHasPossibleValue (pv key : String)
  | wrongPossValArity (key : String)
  | badInheritable (key : String)
deriving DecidableEq, Repr

/-- `split(field, ';')` from the repository's utils (not under src/).
Modelled from the spec: §6 says lists within a cell are `;`-separated; the
split keeps empty segments like the identical delimiter loop in `load`. -/
def splitSemi (s : String) : List String := splitStr ';' s

/-- `split(field, ',')` for the comma-separated link alternatives inside
one `[...]` group (GrammarFile.cpp line 149). -/
def splitComma (s : String) : List String := splitStr ',' s

/-- `links[link_pos].substr(1, links[link_pos].size() - 2)`: strip the
enclosing brackets. -/
def stripEnds (s : String) : String := String.mk ((s.data.drop 1).dropLast)

/-- The header-row comparison of `check` (GrammarFile.cpp lines 100-104):
each recognized name is compared at its fixed column index.  (The C++ reads
up to `vec[TSV_LINK] = vec[10]` after only checking `vec.size() >= 10`, so a
10-column header reads one element out of range; `List.getD` totalizes this.
The theorems below use headers of at least 11 columns.) -/
def headerOk (vec : List String) : Bool :=
  vec.getD TSV_KEYNAME "" == "Key" && vec.getD TSV_TYPE "" == "TYPE" &&
  vec.getD TSV_SINCEVERSION "" == "SinceVersion" &&
  vec.getD TSV_DEPRECATEDIN "" == "DeprecatedIn" &&
  vec.getD TSV_REQUIRED "" == "REQUIRED" &&
  vec.getD TSV_INDIRECTREF "" == "INDIRECTREFERENCE" &&
  vec.getD TSV_INHERITABLE "" == "INHERITABLE" &&
  vec.getD TSV_DEFAULTVALUE "" == "DefaultValue" &&
  vec.getD TSV_POSSIBLEVALUES "" == "PossibleValues" &&
  vec.getD TSV_SPECIALCASE "" == "SpecialCase" &&
  vec.getD TSV_LINK "" == "Link"

/-- The five complex Arlington types (GrammarFile.cpp lines 143-146 and
176-178). -/
def isComplexType (t : String) : Bool :=
  t == "ARRAY" || t == "DICTIONARY" || t == "NUMBER-TREE" ||
  t == "NAME-TREE" || t == "STREAM"

/-- A character of the link regex class `[A-Z,a-z,0-9,_,\,]`
(GrammarFile.cpp line 124). -/
def linkCharOk (c : Char) : Bool :=
  (decide ('A' ≤ c) && decide (c ≤ 'Z')) || (decide ('a' ≤ c) && decide (c ≤ 'z')) ||
  (decide ('0' ≤ c) && decide (c ≤ '9')) || c == '_' || c == ','

/-- `std::regex_match(links[link_pos], regex)` with
`regex = ^\[[A-Z,a-z,0-9,_,\,]*\]$` (GrammarFile.cpp lines 124, 138). -/
def linkPatternOk (s : String) : Bool :=
  match s.data with
  | '[' :: rest =>
    match rest.getLast? with
    | some ']' => rest.dropLast.all linkCharOk
    | _ => false
  | _ => false

/-- Body of the per-link-position loop (GrammarFile.cpp lines 137-167):
wrong bracket pattern, unlinked complex type, and each named link whose TSV
file does not exist.  `existing` is the set of grammar object names for
which `file_exists(dir + "/" + lnk + ".tsv")` holds. -/
def linkPosFindings (existing : List String) (key : String) (types : List String)
    (lnk : String) (pos : Nat) : List Finding :=
  if linkPatternOk lnk = false then [Finding.wrongLinkPattern key]
  else
    (if pos < types.length ∧ lnk = "[]" ∧ isComplexType (types.getD pos "") = true
     then [Finding.typeNotLinked (types.getD pos "") key] else [])
    ++ ((splitComma (stripEnds lnk)).filter
          (fun l => !(l == "") && !(existing.contains l))).map
        (fun l => Finding.linkMissing l key)

/-- The `if (vc[TSV_LINK] != "")` block (GrammarFile.cpp lines 134-168):
arity comparison of links vs types, then the per-position loop. -/
def linkFindings (existing : List String) (key : String) (types links : List String)
    (linkField : String) : List Finding :=
  if linkField = "" then []
  else
    (if links.length ≠ types.length then [Finding.wrongLinkArity key] else [])
    ++ links.enum.flatMap (fun p => linkPosFindings existing key types p.2 p.1)

/-- The basic-type vocabulary loop (GrammarFile.cpp lines 171-173).
`basicTypes` is the `basic_types` member of `CGrammarReader`, declared in
the header that is not under src/. -/
def typeFindings (basicTypes : List String) (key : String) (types : List String) :
    List Finding :=
  (types.filter (fun t => !(basicTypes.contains t))).map (fun t => Finding.wrongType t key)

/-- The complex-type / possible-value loop (GrammarFile.cpp lines 176-182).
For a complex type variant at position `i` with a non-empty PossibleValues
field the C++ evaluates `def_val[t_pos]` without a bounds check; an index
beyond `def_val`'s size is undefined behaviour, modelled as `none`. -/
def complexPVAux (key pvField : String) (defVal : List String) :
    List String → Nat → Option (List Finding)
  | [], _ => some []
  | t :: rest, i =>
    if isComplexType t && !(pvField == "") then
      match defVal.get? i with
      | none => none
      | some d =>
        match complexPVAux key pvField defVal rest (i+1) with
        | none => none
        | some fs =>
          some ((if d == "[]" then []
                 else [Finding.complexHasPossibleValue pvField key]) ++ fs)
    else complexPVAux key pvField defVal rest (i+1)

def complexPVFindings (key pvField : String) (types : List String) :
    Option (List Finding) :=
  complexPVAux key pvField (splitSemi pvField) types 0

/-- The multi-type possible-values arity check (GrammarFile.cpp
lines 185-191). -/
def pvArityFindings (key pvField : String) (types : List String) : List Finding :=
  if 1 < types.length ∧ pvField ≠ "" ∧ types.length ≠ (splitSemi pvField).length
  then [Finding.wrongPossValArity key] else []

/-- The inheritable literal check (GrammarFile.cpp lines 201-202). -/
def inheritableFindings (key inh : String) : List Finding :=
  if inh ≠ "TRUE" ∧ inh ≠ "FALSE" then [Finding.badInheritable key] else []

/-- The duplicate-key check (GrammarFile.cpp lines 115-118): report when the
key was seen before. -/
def dupFindings (processed : List String) (key : String) : List Finding :=
  if processed.contains key then [Finding.duplicateKey key] else []

/-- The `processed` list update (GrammarFile.cpp lines 115-116): a new key is
appended. -/
def newProcessed (processed : List String) (key : String) : List String :=
  if processed.contains key then processed else processed ++ [key]

/-- All findings of one data row, in the order `check` emits them, or `none`
when the row triggers the out-of-bounds `def_val[t_pos]` access. -/
def rowFindings (existing basicTypes processed : List String) (vc : List String) :
    Option (List Finding) :=
  match complexPVFindings (vc.getD TSV_KEYNAME "") (vc.getD TSV_POSSIBLEVALUES "")
      (splitSemi (vc.getD TSV_TYPE "")) with
  | none => none
  | some cf =>
    some (dupFindings processed (vc.getD TSV_KEYNAME "")
      ++ linkFindings existing (vc.getD TSV_KEYNAME "") (splitSemi (vc.getD TSV_TYPE ""))
          (splitSemi (vc.getD TSV_LINK "")) (vc.getD TSV_LINK "")
      ++ typeFindings basicTypes (vc.getD TSV_KEYNAME "") (splitSemi (vc.getD TSV_TYPE ""))
      ++ cf
      ++ pvArityFindings (vc.getD TSV_KEYNAME "") (vc.getD TSV_POSSIBLEVALUES "")
          (splitSemi (vc.getD TSV_TYPE ""))
      ++ inheritableFindings (vc.getD TSV_KEYNAME "") (vc.getD TSV_INHERITABLE ""))

/-- The row loop of `check` (GrammarFile.cpp lines 113-203), threading the
`processed` key list and concatenating each row's findings. -/
def checkRowsSt (existing basicTypes : List String) :
    List (List String) → List String → Option (List Finding × List String)
  | [], p => some ([], p)
  | vc :: rest, p =>
    match rowFindings existing basicTypes p vc with
    | none => none
    | some fs =>
      match checkRowsSt existing basicTypes rest (newProcessed p (vc.getD TSV_KEYNAME "")) with
      | none => none
      | some (gs, pf) => some (fs ++ gs, pf)

/-- `CGrammarReader::check`: empty data list, column count of the header,
header names, then the row loop.  The returned Bool is `check`'s return
value; the Finding list is the report stream's content. -/
def check (existing basicTypes : List String) (dataList : List (List String)) :
    Option (Bool × List Finding) :=
  match dataList with
  | [] => some (false, [Finding.emptyGrammarFile])
  | vec :: rest =>
    if vec.length < 10 then some (false, [Finding.wrongColumnCount])
    else if headerOk vec = false then some (false, [Finding.wrongHeaders])
    else
      match checkRowsSt existing basicTypes rest [] with
      | none => none
      | some (fs, _) => some (true, fs)

/-- C10: a file that cannot be opened or has no lines loads successfully
with an empty data list, and only the later self-check reports the empty
grammar file (as a failure). -/
theorem load_empty_then_check_reports (delim : Char) (e b : List String) :
    load delim [] = (true, [])
    ∧ check e b [] = some (false, [Finding.emptyGrammarFile]) :=
  ⟨rfl, rfl⟩

/-- The recognized header names, post-`load` (the loader has already
uppercased the Type/Required/IndirectReference/Inheritable header cells), in
their fixed column order. -/
def canonicalHeader : List String :=
  ["Key", "TYPE", "SinceVersion", "DeprecatedIn", "REQUIRED", "INDIRECTREFERENCE",
   "INHERITABLE", "DefaultValue", "PossibleValues", "SpecialCase", "Link"]

/-- The same names with the first two columns exchanged. -/
def swappedHeader : List String :=
  ["TYPE", "Key", "SinceVersion", "DeprecatedIn", "REQUIRED", "INDIRECTREFERENCE",
   "INHERITABLE", "DefaultValue", "PossibleValues", "SpecialCase", "Link"]

/-- Counterexample to C5: a header whose names exactly match the recognized
set (it is a permutation of the canonical header) but arrive in a different
column order is rejected with the wrong-headers failure, not accepted. -/
theorem header_order_rejected_cex :
    swappedHeader.Perm canonicalHeader
    ∧ check [] [] [swappedHeader] = some (false, [Finding.wrongHeaders]) := by
  constructor
  · exact List.Perm.swap "Key" "TYPE"
      ["SinceVersion", "DeprecatedIn", "REQUIRED", "INDIRECTREFERENCE",
       "INHERITABLE", "DefaultValue", "PossibleValues", "SpecialCase", "Link"]
  · rfl

/-- C5 as amended: the self-check fails with the wrong-column-count report
when the header row has fewer than 10 columns, and otherwise fails with the
wrong-headers report exactly when the header names at their fixed column
positions differ from the recognized names — name matching is positional,
so a reordered header is rejected; in addition, `load` itself rejects a
first line with fewer than `TSV_NOTES` columns. -/
theorem check_header_behavior (e b : List String) (vec : List String)
    (rest : List (List String)) (delim : Char) (line : String) (lines : List String) :
    (vec.length < 10 → check e b (vec :: rest) = some (false, [Finding.wrongColumnCount]))
    ∧ (¬ vec.length < 10 → headerOk vec = false →
        check e b (vec :: rest) = some (false, [Finding.wrongHeaders]))
    ∧ (¬ vec.length < 10 → headerOk vec = true →
        check e b (vec :: rest)
          = match checkRowsSt e b rest [] with
            | none => none
            | some r => some (true, r.1))
    ∧ ((splitStr delim line).length < TSV_NOTES → load delim (line :: lines) = (false, [])) := by
  refine ⟨?_, ?_, ?_, ?_⟩
  · intro h
    simp [check, h]
  · intro h hh
    simp [check, h, hh]
  · intro h hh
    simp only [check]
    rw [if_neg h, hh, if_neg (by simp : ¬ (true = false))]
    rcases checkRowsSt e b rest [] with _ | ⟨fs, p⟩ <;> rfl
  · intro h
    simp [load, loadAux, h]

/-- Witness for amended C5: `load` rejects a two-column first line. -/
theorem check_header_behavior_witness :
    (splitStr '\t' "a\tb").length < TSV_NOTES
    ∧ load '\t' ["a\tb"] = (false, []) :=
  ⟨by decide, (check_header_behavior [] [] [] [] '\t' "a\tb" []).2.2.2 (by decide)⟩

/-! ## C6 and C9: accumulation versus the out-of-bounds possible-values
access

GrammarFile.cpp line 179-180: for a complex type variant at position
`t_pos`, `check` evaluates `def_val[t_pos]` where
`def_val = split(vc[TSV_POSSIBLEVALUES], ';')`.  When PossibleValues has
fewer `;`-segments than Type, the index is out of bounds
(`std::vector::operator[]`, undefined behaviour / crash), so `check` never
returns its report on such a row. -/

/-- A row with two defects on ordinary fields: Inheritable is not a boolean
literal. -/
def rowBadInh : List String :=
  ["A", "BOOLEAN", "1.0", "", "TRUE", "FALSE", "MAYBE", "", "", "", "", ""]

/-- A row whose type token is outside the recognized vocabulary. -/
def rowBadType : List String :=
  ["B", "BOGUS", "1.0", "", "TRUE", "FALSE", "TRUE", "", "", "", "", ""]

/-- A row whose PossibleValues has one `;`-segment while its Type list has a
complex variant at position 1: the `def_val[1]` access is out of bounds. -/
def rowOobPV : List String :=
  ["C", "BOOLEAN;DICTIONARY", "1.0", "", "TRUE", "FALSE", "TRUE", "", "[x]", "", "", ""]

/-- C6: the self-check does accumulate the findings of every row — two
defective rows both contribute, in row order, and `check` still returns
`true` with the full report — but on a row whose PossibleValues is shorter
than its type list it performs the out-of-bounds `def_val[t_pos]` access
(modelled `none`): it crashes instead of returning the report, so the
"never raises or aborts" part of the claim fails on that input. -/
theorem check_accumulates_but_crashes :
    check [] ["BOOLEAN"] [canonicalHeader, rowBadInh, rowBadType]
      = some (true, [Finding.badInheritable "A", Finding.wrongType "BOGUS" "B"])
    ∧ check [] ["BOOLEAN", "DICTIONARY"] [canonicalHeader, rowOobPV] = none :=
  ⟨rfl, rfl⟩

/-- C9: at the failing row, the semicolon-split PossibleValues list has one
segment, the type list has a complex variant at position 1, and the embedded
row check reaches the out-of-bounds access (`none`): the `def_val[t_pos]`
access is NOT in bounds. -/
theorem possible_values_oob :
    (splitSemi (rowOobPV.getD TSV_POSSIBLEVALUES "")).length = 1
    ∧ isComplexType ((splitSemi (rowOobPV.getD TSV_TYPE "")).getD 1 "") = true
    ∧ rowFindings [] ["BOOLEAN", "DICTIONARY"] [] rowOobPV = none :=
  ⟨rfl, rfl, rfl⟩

/-! ## C7: the type/link arity mismatch report -/

theorem arity_notin_linkPosFindings (e : List String) (key : String)
    (types : List String) (lnk : String) (pos : Nat) :
    Finding.wrongLinkArity key ∉ linkPosFindings e key types lnk pos := by
  unfold linkPosFindings
  split
  · simp
  · intro hmem
    rcases List.mem_append.mp hmem with h1 | h1
    · split at h1 <;> simp_all
    · rcases List.mem_map.mp h1 with ⟨l, _, habs⟩
      exact Finding.noConfusion habs

theorem arity_notin_linkBody (e : List String) (key : String)
    (types links : List String) :
    Finding.wrongLinkArity key
      ∉ links.enum.flatMap (fun p => linkPosFindings e key types p.2 p.1) := by
  intro hmem
  rcases List.mem_flatMap.mp hmem with ⟨p, _, hp⟩
  exact arity_notin_linkPosFindings e key types p.2 p.1 hp

theorem arity_mem_linkFindings_iff (e : List String) (key : String)
    (types links : List String) (linkField : String) (hlink : linkField ≠ "") :
    Finding.wrongLinkArity key ∈ linkFindings e key types links linkField
      ↔ links.length ≠ types.length := by
  unfold linkFindings
  rw [if_neg hlink]
  constructor
  · intro h
    rcases List.mem_append.mp h with h1 | h1
    · by_cases hm : links.length ≠ types.length
      · exact hm
      · rw [if_neg hm] at h1; simp at h1
    · exact absurd h1 (arity_notin_linkBody e key types links)
  · intro hm
    exact List.mem_append.mpr (Or.inl (by rw [if_pos hm]; simp))

theorem arity_notin_complexPVAux (key pv : String) (dv : List String)
    (ts : List String) (i : Nat) (fs : List Finding)
    (h : complexPVAux key pv dv ts i = some fs) :
    Finding.wrongLinkArity key ∉ fs := by
  induction ts generalizing i fs with
  | nil =>
    unfold complexPVAux at h
    cases h
    simp
  | cons t rest ih =>
    unfold complexPVAux at h
    split at h
    · cases hdv : dv.get? i with
      | none => rw [hdv] at h; cases h
      | some d =>
        rw [hdv] at h
        cases hrec : complexPVAux key pv dv rest (i + 1) with
        | none => rw [hrec] at h; cases h
        | some gs =>
          rw [hrec] at h
          cases h
          intro hmem
          rcases List.mem_append.mp hmem with h1 | h1
          · split at h1 <;> simp_all
          · exact ih (i + 1) gs hrec h1
    · exact ih (i + 1) fs h

/-- C7: a row with a non-empty links field gets the arity-mismatch finding
in its report exactly when the number of `;`-separated link segments differs
from the number of `;`-separated type segments; equal counts produce no
arity finding. -/
theorem link_arity_reported_iff (e b processed : List String) (vc : List String)
    (fs : List Finding)
    (hlink : vc.getD TSV_LINK "" ≠ "")
    (hrow : rowFindings e b processed vc = some fs) :
    Finding.wrongLinkArity (vc.getD TSV_KEYNAME "") ∈ fs
      ↔ (splitSemi (vc.getD TSV_LINK "")).length
          ≠ (splitSemi (vc.getD TSV_TYPE "")).length := by
  unfold rowFindings at hrow
  cases hcf : complexPVFindings (vc.getD TSV_KEYNAME "") (vc.getD TSV_POSSIBLEVALUES "")
      (splitSemi (vc.getD TSV_TYPE "")) with
  | none => rw [hcf] at hrow; cases hrow
  | some cf =>
    rw [hcf] at hrow
    cases hrow
    constructor
    · intro hmem
      simp only [List.mem_append] at hmem
      rcases hmem with ((((hm | hm) | hm) | hm) | hm) | hm
      · unfold dupFindings at hm; split at hm <;> simp_all
      · exact (arity_mem_linkFindings_iff _ _ _ _ _ hlink).mp hm
      · unfold typeFindings at hm
        rcases List.mem_map.mp hm with ⟨t, _, habs⟩
        exact Finding.noConfusion habs
      · exact absurd hm (arity_notin_complexPVAux _ _ _ _ _ _ hcf)
      · unfold pvArityFindings at hm; split at hm <;> simp_all
      · unfold inheritableFindings at hm; split at hm <;> simp_all
    · intro hne
      refine List.mem_append.mpr (Or.inl (List.mem_append.mpr (Or.inl
        (List.mem_append.mpr (Or.inl (List.mem_append.mpr (Or.inl
          (List.mem_append.mpr (Or.inr ?_)))))))))
      exact (arity_mem_linkFindings_iff _ _ _ _ _ hlink).mpr hne

/-- A concrete row with two type variants and one link group. -/
def rowArity : List String :=
  ["K", "INTEGER;ARRAY", "1.0", "", "FALSE", "FALSE", "FALSE", "", "", "", "[A]", ""]

/-- Witness for C7: on a row with 2 types and 1 link, the row's report
contains the arity-mismatch finding. -/
theorem link_arity_reported_iff_witness :
    rowArity.getD TSV_LINK "" ≠ ""
    ∧ rowFindings ["A"] ["INTEGER", "ARRAY"] [] rowArity
        = some [Finding.wrongLinkArity "K"]
    ∧ Finding.wrongLinkArity (rowArity.getD TSV_KEYNAME "")
        ∈ [Finding.wrongLinkArity "K"] :=
  ⟨by decide, rfl,
   (link_arity_reported_iff ["A"] ["INTEGER", "ARRAY"] [] rowArity
      [Finding.wrongLinkArity "K"] (by decide) rfl).mpr (by decide)⟩

/-! ## C8: the predicate scan of `XMLCreator.nodeValues`

The inner while-loops of `nodeValues` (XMLCreator.java lines 407-442 for the
links branch and 452-487 for the possible-values branch) walk a
bracket-stripped field string `a` and cut it into value segments.  Both
branches handle an `fn:`-prefixed segment identically (lines 408-429 and
453-474).  Java `assert` statements are disabled by default; the embedding
executes the fall-through behaviour and records in a Boolean whether every
assert condition held (`false` = an assert condition was violated, i.e. the
run aborts when assertions are enabled). -/

/-- `cs.startsWith "fn:"` on character lists. -/
def startsWithFnL (cs : List Char) : Bool :=
  match cs with
  | 'f' :: 'n' :: ':' :: _ => true
  | _ => false

/-- Java `String.isBlank()`: empty or whitespace only. -/
def isBlankL (cs : List Char) : Bool := cs.all (fun c => c.isWhitespace)

/-- Lines 426-428 / 470-473: remove a leading COMMA if not at end of
string. -/
def commaStrip (cs : List Char) : List Char :=
  if !(isBlankL cs) && (cs.headD ' ' == ',') then cs.tail else cs

/-- Modelled from the spec: `TSVHandler.indexOfOuterCloseBracket` is called
from `nodeValues` (lines 410, 455) but its source is not among the audited
files.  Spec §4.1: a segment beginning with the predicate marker is scanned
to its own balanced closing parenthesis; the index of the parenthesis
closing the predicate's first opening parenthesis is returned, `none`
(Java -1) when there is no matching close before the end of the string. -/
def findCloseAux : List Char → Nat → Nat → Option Nat
  | [], _, _ => none
  | c :: rest, i, depth =>
    if c = '(' then findCloseAux rest (i + 1) (depth + 1)
    else if c = ')' then
      if depth = 1 then some i else findCloseAux rest (i + 1) (depth - 1)
    else findCloseAux rest (i + 1) depth

def indexOfOuterCloseBracket (cs : List Char) : Option Nat := findCloseAux cs 0 0

/-- One iteration of the `nodeValues` segment loop on the remaining string
`a`, returning (emitted segment, remaining string, assert-conditions-held).
`fn:` branch (lines 453-474): `j = indexOfOuterCloseBracket(a)`,
`assert j != -1`; with assertions disabled `j = -1` falls through, so the
emitted segment is `a.substring(0, j + 1) = a.substring(0, 0) = ""` and the
remainder is `a.substring(1)` (since `j + 2 = 1`), followed by the comma
strip.  Non-`fn:` branch (lines 476-486, the possible-values copy): cut at
the first comma, or take the whole rest. -/
def scanStep (cs : List Char) : List Char × List Char × Bool :=
  if startsWithFnL cs then
    match indexOfOuterCloseBracket cs with
    | none =>
      ([], commaStrip (if 1 < cs.length then cs.drop 1 else []), false)
    | some j =>
      (cs.take (j + 1), commaStrip (if j + 2 < cs.length then cs.drop (j + 2) else []), true)
  else
    match cs.findIdx? (fun c => c == ',') with
    | some i => (cs.take i, cs.drop (i + 1), true)
    | none => (cs, [], true)

/-- The `while (!a.isBlank())` loop, fuel-bounded.  Every iteration strictly
shortens the remaining string, so `length + 1` fuel is never exhausted. -/
def scanLoop : Nat → List Char → List (List Char) × Bool
  | 0, _ => ([], true)
  | fuel + 1, cs =>
    if isBlankL cs then ([], true)
    else
      let st := scanStep cs
      let r := scanLoop fuel st.2.1
      (st.1 :: r.1, st.2.2 && r.2)

def scanSegments (cs : List Char) : List (List Char) × Bool :=
  scanLoop (cs.length + 1) cs

/-- Counterexample to C8: on the unbalanced predicate `fn:A(x` the scan does
NOT report-and-extend the segment to the end of the string — the assert
condition `j != -1` is violated (an abort when assertions run), and with
assertions disabled the predicate's segment comes out empty, after which the
leftover `n:A(x` is emitted as a spurious second segment. -/
theorem scan_unbalanced_cex :
    scanSegments "fn:A(x".data = ([[], ['n', ':', 'A', '(', 'x']], false)
    ∧ scanSegments "fn:A(x".data ≠ (["fn:A(x".data], true) := by
  constructor
  · rfl
  · decide

/-- C8 as amended: when a segment begins with the `fn:` marker and has no
balancing closing parenthesis, the scan's assert condition fails (aborting
the conversion when Java assertions are enabled); with assertions disabled
no error is reported, the predicate's segment is emitted as the empty
string — not as extending to the end of the string — and scanning resumes
one character further on (after the comma strip). -/
theorem scanStep_unbalanced (cs : List Char)
    (hfn : startsWithFnL cs = true)
    (hnone : indexOfOuterCloseBracket cs = none) :
    scanStep cs = ([], commaStrip (if 1 < cs.length then cs.drop 1 else []), false) := by
  unfold scanStep
  rw [if_pos hfn, hnone]

/-- Witness for amended C8 at the concrete unbalanced predicate `fn:B(`. -/
theorem scanStep_unbalanced_witness :
    startsWithFnL "fn:B(".data = true
    ∧ indexOfOuterCloseBracket "fn:B(".data = none
    ∧ scanStep "fn:B(".data
        = ([], commaStrip (if 1 < "fn:B(".data.length then "fn:B(".data.drop 1 else []),
           false) :=
  ⟨rfl, rfl, scanStep_unbalanced "fn:B(".data rfl rfl⟩

end Arlington
